import Mathlib

/-!
Verification of the gForce layout engine (src/src/layout/gForce.ts).

The per-node / per-pair / per-edge bodies of the force calculators and the
integrator are embedded as Lean functions over the reals; the numeric
configuration values become explicit parameters, and JavaScript truthiness
on numbers is modelled by comparison with zero (`jsOr`).  Option-valued
fields model possibly-absent JavaScript values.
-/

/-- A node as seen by the integrator: mutable position and optional pinned
coordinates.  Sizes, strengths and masses are supplied through the
callback parameters of each calculator, exactly as in the source. -/
structure INode where
  x : ℝ
  y : ℝ
  fx : Option ℝ
  fy : Option ℝ

/-- Modelled from the spec: the helper `isNumber` is imported from
`../util`, which is not under `src/`; per the spec a value passes the check
exactly when it is a finite number.  In this real-valued model an absent or
non-numeric value is `none` and every present value `some r` is a finite
number. -/
def isNumber : Option ℝ → Bool
  | none => false
  | some _ => true

/-- JavaScript `a || b` on numbers: `a` when truthy (nonzero), else `b`. -/
noncomputable def jsOr (a b : ℝ) : ℝ := if a = 0 then b else a

/-- Euclidean norm of a 2-d vector, written with `x*x + y*y` as the source
computes its `lengthSqr`. -/
noncomputable def vecNorm (x y : ℝ) : ℝ := Real.sqrt (x * x + y * y)

/-- A configuration value that is either a plain number or a callback,
as accepted by `proccessToFunc` (gForce.ts lines 26-43). -/
inductive ConfigValue (α : Type) where
  | num (v : ℚ)
  | func (f : α → ℚ)

/-- JavaScript `defaultV || 1` from gForce.ts line 33. -/
def defaultOr1 : Option ℚ → ℚ
  | none => 1
  | some d => if d = 0 then 1 else d

/-- Embedding of `proccessToFunc` (gForce.ts lines 26-43).  The source
tests `!value` first, which is true for an absent value and for the
number `0`; then `isNumber(value)`; otherwise the value is a callback. -/
def proccessToFunc {α : Type} (value : Option (ConfigValue α))
    (defaultV : Option ℚ) : α → ℚ :=
  match value with
  | none => fun _ => defaultOr1 defaultV
  | some (ConfigValue.num v) =>
      if v = 0 then fun _ => defaultOr1 defaultV else fun _ => v
  | some (ConfigValue.func f) => f

/-- Embedding of the inner-loop body of `calRepulsive` (gForce.ts lines
329-359) for one unordered pair `(ni, nj)`, `i < j`.  `rand` stands for the
two `Math.random()` draws used only when the nodes coincide.  Returns the
acceleration deltas `(Δacc_i, Δacc_j)`. -/
noncomputable def calRepulsivePair (factor coulombDisScale : ℝ)
    (preventOverlap : Bool) (collideStrength : ℝ)
    (nodeStrength nodeSize getMass : INode → ℝ)
    (ni nj : INode) (rand : ℝ × ℝ) : (ℝ × ℝ) × (ℝ × ℝ) :=
  let vecX := if ni.x - nj.x = 0 ∧ ni.y - nj.y = 0 then rand.1 * 0.01 else ni.x - nj.x
  let vecY := if ni.x - nj.x = 0 ∧ ni.y - nj.y = 0 then rand.2 * 0.01 else ni.y - nj.y
  let lengthSqr := vecX * vecX + vecY * vecY
  let vecLength := Real.sqrt lengthSqr
  let nVecLength := (vecLength + 0.1) * coulombDisScale
  let direX := vecX / vecLength
  let direY := vecY / vecLength
  let param := (nodeStrength ni + nodeStrength nj) * 0.5 * factor / (nVecLength * nVecLength)
  let massi := getMass ni
  let massj := getMass nj
  if preventOverlap = true ∧ (nodeSize ni + nodeSize nj) / 2 > vecLength then
    let paramOverlap := collideStrength * (nodeStrength ni + nodeStrength nj) * 0.5 / lengthSqr
    ((direX * param + direX * paramOverlap / massi,
      direY * param + direY * paramOverlap / massi),
     (-(direX * param) - direX * paramOverlap / massj,
      -(direY * param) - direY * paramOverlap / massj))
  else
    ((direX * param, direY * param), (-(direX * param), -(direY * param)))

/-- Embedding of the ideal-length expression of `calAttractive`
(gForce.ts line 382): `linkDistance(edge, source, target) || 1 +
((nodeSize(source) + nodeSize(target)) || 0) / 2`. -/
noncomputable def idealLength {α : Type} (linkDistance : α → INode → INode → ℝ)
    (nodeSize : INode → ℝ) (edge : α) (sourceNode targetNode : INode) : ℝ :=
  jsOr (linkDistance edge sourceNode targetNode)
    (1 + jsOr (nodeSize sourceNode + nodeSize targetNode) 0 / 2)

/-- Embedding of the per-edge body of `calAttractive` (gForce.ts lines
368-393).  Returns the acceleration deltas `(Δacc_source, Δacc_target)`. -/
noncomputable def calAttractiveEdge {α : Type} (linkDistance : α → INode → INode → ℝ)
    (edgeStrength : α → ℝ) (nodeSize getMass : INode → ℝ)
    (edge : α) (sourceNode targetNode : INode) (rand : ℝ × ℝ) : (ℝ × ℝ) × (ℝ × ℝ) :=
  let vecX := if targetNode.x - sourceNode.x = 0 ∧ targetNode.y - sourceNode.y = 0
    then rand.1 * 0.01 else targetNode.x - sourceNode.x
  let vecY := if targetNode.x - sourceNode.x = 0 ∧ targetNode.y - sourceNode.y = 0
    then rand.2 * 0.01 else targetNode.y - sourceNode.y
  let vecLength := Real.sqrt (vecX * vecX + vecY * vecY)
  let direX := vecX / vecLength
  let direY := vecY / vecLength
  let length := idealLength linkDistance nodeSize edge sourceNode targetNode
  let diff := length - vecLength
  let param := diff * edgeStrength edge
  let massSource := getMass sourceNode
  let massTarget := getMass targetNode
  ((-(direX * param) / massSource, -(direY * param) / massSource),
   (direX * param / massTarget, direY * param / massTarget))

/-- Embedding of the per-node body of `calGravity` (gForce.ts lines
403-426).  The custom-center result is a possibly-absent triple of
possibly-non-numeric components; the `some (some _, some _, some _)` arm is
exactly the source guard `customCenterOpt && isNumber(c[0]) &&
isNumber(c[1]) && isNumber(c[2])`.  `(ax, ay)` is the node's accumulated
acceleration. -/
noncomputable def calGravityNode (center : ℝ × ℝ) (defaultGravity : ℝ)
    (getCenter : Option (INode → ℝ → Option (Option ℝ × Option ℝ × Option ℝ)))
    (node : INode) (degree : ℝ) (ax ay : ℝ) : ℝ × ℝ :=
  let vg : ℝ × ℝ × ℝ :=
    match getCenter with
    | none => (node.x - center.1, node.y - center.2, defaultGravity)
    | some f =>
      match f node degree with
      | some (some cx, some cy, some g) => (node.x - cx, node.y - cy, g)
      | _ => (node.x - center.1, node.y - center.2, defaultGravity)
  if vg.2.2 = 0 then (ax, ay)
  else (ax - vg.2.2 * vg.1, ay - vg.2.2 * vg.2.1)

/-- Embedding of the pre-clamp velocity of `updateVelocity` (gForce.ts
lines 439-440): `accArray[2i] * stepInterval * damping || 0.01`. -/
noncomputable def preVelocity (damping stepInterval ax ay : ℝ) : ℝ × ℝ :=
  (jsOr (ax * (stepInterval * damping)) 0.01,
   jsOr (ay * (stepInterval * damping)) 0.01)

/-- Embedding of the per-node body of `updateVelocity` (gForce.ts lines
438-449), including the speed clamp. -/
noncomputable def updateVelocityNode (damping maxSpeed stepInterval ax ay : ℝ) : ℝ × ℝ :=
  let v := preVelocity damping stepInterval ax ay
  let vLength := vecNorm v.1 v.2
  if vLength > maxSpeed then (maxSpeed / vLength * v.1, maxSpeed / vLength * v.2)
  else v

/-- Embedding of the per-node body of `updatePosition` (gForce.ts lines
457-467): a node with both pinned coordinates numeric snaps to them,
otherwise both coordinates advance by `velocity * stepInterval`. -/
noncomputable def updatePositionNode (stepInterval vx vy : ℝ) (node : INode) : INode :=
  if isNumber node.fx && isNumber node.fy then
    { node with x := node.fx.getD node.x, y := node.fy.getD node.y }
  else
    { node with x := node.x + vx * stepInterval, y := node.y + vy * stepInterval }

/-- Iterated position updates with an arbitrary per-step velocity stream,
modelling any number of steps with any accumulated forces. -/
noncomputable def iterUpdatePosition (stepInterval : ℝ) (vel : ℕ → ℝ × ℝ) :
    ℕ → INode → INode
  | 0, node => node
  | n + 1, node =>
      updatePositionNode stepInterval (vel n).1 (vel n).2
        (iterUpdatePosition stepInterval vel n node)

/-- Observable state of the interval-driven run loop (gForce.ts lines
263-277): the iteration counter, how many times `onLayoutEnd` has fired,
and whether `clearInterval` has been called. -/
structure DriverState where
  iter : ℕ
  endCount : ℕ
  cleared : Bool

/-- Embedding of one execution of the `window.setInterval` callback in
`run` (gForce.ts lines 265-277).  `reached` is the value of
`reachMoveThreshold` for this tick. -/
def intervalTick (maxIteration : ℕ) (reached : Bool) (s : DriverState) : DriverState :=
  let s1 := if reached then { s with endCount := s.endCount + 1, cleared := true } else s
  let s2 := { s1 with iter := s1.iter + 1 }
  if maxIteration ≤ s2.iter then { s2 with endCount := s2.endCount + 1, cleared := true }
  else s2

/-! ## Helper lemmas -/

lemma jsOr_of_ne {a : ℝ} (b : ℝ) (h : a ≠ 0) : jsOr a b = a := by
  unfold jsOr
  exact if_neg h

lemma jsOr_of_eq {a : ℝ} (b : ℝ) (h : a = 0) : jsOr a b = b := by
  unfold jsOr
  exact if_pos h

lemma jsOr_zero_right (a : ℝ) : jsOr a 0 = a := by
  unfold jsOr
  split <;> simp_all

lemma vecNorm_nonneg (x y : ℝ) : 0 ≤ vecNorm x y := Real.sqrt_nonneg _

lemma vecNorm_pos {x y : ℝ} (h : ¬(x = 0 ∧ y = 0)) : 0 < vecNorm x y := by
  unfold vecNorm
  apply Real.sqrt_pos.mpr
  rcases not_and_or.mp h with h | h
  · nlinarith [mul_self_pos.mpr h, mul_self_nonneg y]
  · nlinarith [mul_self_pos.mpr h, mul_self_nonneg x]

lemma vecNorm_mul_self (x y : ℝ) : vecNorm x y * vecNorm x y = x * x + y * y := by
  unfold vecNorm
  exact Real.mul_self_sqrt (add_nonneg (mul_self_nonneg x) (mul_self_nonneg y))

lemma vecNorm_smul (c x y : ℝ) (hc : 0 ≤ c) : vecNorm (c * x) (c * y) = c * vecNorm x y := by
  unfold vecNorm
  rw [show c * x * (c * x) + c * y * (c * y) = c ^ 2 * (x * x + y * y) by ring,
    Real.sqrt_mul (sq_nonneg c), Real.sqrt_sq hc]

lemma real_sqrt_25 : Real.sqrt 25 = 5 := by
  rw [show (25 : ℝ) = 5 ^ 2 by norm_num]
  exact Real.sqrt_sq (by norm_num)

lemma vecNorm_3_4 : vecNorm 3 4 = 5 := by
  unfold vecNorm
  rw [show (3 : ℝ) * 3 + 4 * 4 = 25 by norm_num]
  exact real_sqrt_25

/-! ## Claims -/

/-- C6 counterexample: the numeric configuration value `0` is falsy in
JavaScript, so `proccessToFunc` maps it to the constant default (`5` here),
not to the constant function returning `0` as the claim states. -/
theorem gForce_C6_cex :
    proccessToFunc (α := Unit) (some (ConfigValue.num 0)) (some 5) () = 5 ∧
      proccessToFunc (α := Unit) (some (ConfigValue.num 0)) (some 5) () ≠ 0 := by
  constructor
  · rfl
  · intro h
    simp [proccessToFunc, defaultOr1] at h

/-- C6 (amended): force-function normalization maps an absent value, or the
numeric value zero, to a constant function returning the default (itself
falling back to 1 when the default is absent or zero); any nonzero numeric
value v to a constant function returning v; and a callable to that callable
unchanged. -/
theorem gForce_C6_amended {α : Type} (dV : Option ℚ) (f : α → ℚ) (v : ℚ) (x : α)
    (hv : v ≠ 0) :
    proccessToFunc none dV x = defaultOr1 dV ∧
      proccessToFunc (some (ConfigValue.num 0)) dV x = defaultOr1 dV ∧
      proccessToFunc (some (ConfigValue.num v)) dV x = v ∧
      proccessToFunc (some (ConfigValue.func f)) dV x = f x := by
  refine ⟨rfl, rfl, ?_, rfl⟩
  simp [proccessToFunc, hv]

/-- C6 amended witness at concrete inputs. -/
theorem gForce_C6_amended_witness :
    (7 : ℚ) ≠ 0 ∧
      (proccessToFunc none (some 5) () = defaultOr1 (some 5) ∧
        proccessToFunc (some (ConfigValue.num 0)) (some 5) () = defaultOr1 (some 5) ∧
        proccessToFunc (some (ConfigValue.num 7)) (some 5) () = 7 ∧
        proccessToFunc (some (ConfigValue.func fun _ => 9)) (some 5) () = (fun _ : Unit => (9 : ℚ)) ()) :=
  ⟨by norm_num, gForce_C6_amended (some 5) (fun _ => 9) 7 () (by norm_num)⟩

lemma updatePositionNode_pinned (st vx vy : ℝ) {node : INode} {a b : ℝ}
    (hfx : node.fx = some a) (hfy : node.fy = some b) :
    updatePositionNode st vx vy node = { node with x := a, y := b } := by
  unfold updatePositionNode
  rw [hfx, hfy]
  simp [isNumber]

lemma updatePositionNode_fx (st vx vy : ℝ) (node : INode) :
    (updatePositionNode st vx vy node).fx = node.fx := by
  unfold updatePositionNode
  split <;> simp

lemma updatePositionNode_fy (st vx vy : ℝ) (node : INode) :
    (updatePositionNode st vx vy node).fy = node.fy := by
  unfold updatePositionNode
  split <;> simp

lemma iterUpdatePosition_fx (st : ℝ) (vel : ℕ → ℝ × ℝ) (node : INode) :
    ∀ n, (iterUpdatePosition st vel n node).fx = node.fx ∧
      (iterUpdatePosition st vel n node).fy = node.fy := by
  intro n
  induction n with
  | zero => exact ⟨rfl, rfl⟩
  | succ m ih =>
    unfold iterUpdatePosition
    rw [updatePositionNode_fx, updatePositionNode_fy]
    exact ih

/-- C9: the ideal separation used by the attraction calculator equals the
caller-provided link-distance function evaluated on the edge and both
endpoint nodes, and when that result is falsy (zero) it equals 1 plus half
the sum of both endpoints' sizes. -/
theorem gForce_C9 {α : Type} (linkDistance : α → INode → INode → ℝ)
    (nodeSize : INode → ℝ) (edge : α) (sourceNode targetNode : INode) :
    (linkDistance edge sourceNode targetNode ≠ 0 →
      idealLength linkDistance nodeSize edge sourceNode targetNode =
        linkDistance edge sourceNode targetNode) ∧
    (linkDistance edge sourceNode targetNode = 0 →
      idealLength linkDistance nodeSize edge sourceNode targetNode =
        1 + (nodeSize sourceNode + nodeSize targetNode) / 2) := by
  constructor
  · intro h
    unfold idealLength
    exact jsOr_of_ne _ h
  · intro h
    unfold idealLength
    rw [jsOr_of_eq _ h, jsOr_zero_right]

/-- C9 witness at concrete inputs: a truthy link distance of 2 is used
as-is; a falsy link distance of 0 falls back to 1 plus half the summed
sizes. -/
theorem gForce_C9_witness :
    idealLength (fun _ _ _ => (2 : ℝ)) (fun _ => 4) () ⟨0, 0, none, none⟩ ⟨1, 0, none, none⟩ = 2 ∧
      idealLength (fun _ _ _ => (0 : ℝ)) (fun _ => 4) () ⟨0, 0, none, none⟩ ⟨1, 0, none, none⟩ =
        1 + ((4 : ℝ) + 4) / 2 :=
  ⟨(gForce_C9 (fun _ _ _ => (2 : ℝ)) (fun _ => 4) () _ _).1 (by norm_num),
   (gForce_C9 (fun _ _ _ => (0 : ℝ)) (fun _ => 4) () _ _).2 rfl⟩

/-- C10: a node with exactly one numeric pinned coordinate is treated as
fully unpinned by the position update: both coordinates advance by
`velocity * stepInterval`, neither snaps to the supplied override, and the
pinned fields are left as they were. -/
theorem gForce_C10 (stepInterval vx vy : ℝ) (node : INode)
    (h : (isNumber node.fx = true ∧ isNumber node.fy = false) ∨
      (isNumber node.fx = false ∧ isNumber node.fy = true)) :
    (updatePositionNode stepInterval vx vy node).x = node.x + vx * stepInterval ∧
    (updatePositionNode stepInterval vx vy node).y = node.y + vy * stepInterval ∧
    (updatePositionNode stepInterval vx vy node).fx = node.fx ∧
    (updatePositionNode stepInterval vx vy node).fy = node.fy := by
  have hcond : (isNumber node.fx && isNumber node.fy) = false := by
    rcases h with ⟨h1, h2⟩ | ⟨h1, h2⟩ <;> simp [h1, h2]
  unfold updatePositionNode
  rw [hcond]
  simp

/-- C10 witness: a node pinned only in x advances in both coordinates. -/
theorem gForce_C10_witness :
    (updatePositionNode 1 2 3 ⟨0, 0, some 42, none⟩).x = (0 : ℝ) + 2 * 1 ∧
    (updatePositionNode 1 2 3 ⟨0, 0, some 42, none⟩).y = (0 : ℝ) + 3 * 1 ∧
    (updatePositionNode 1 2 3 ⟨0, 0, some 42, none⟩).fx = some 42 ∧
    (updatePositionNode 1 2 3 ⟨0, 0, some 42, none⟩).fy = none :=
  gForce_C10 1 2 3 ⟨0, 0, some 42, none⟩ (Or.inl ⟨rfl, rfl⟩)

/-- C4: a node with both pinned coordinates set snaps exactly to
`(fx, fy)` ignoring velocity, and across any positive number of steps,
whatever the per-step velocities produced by the accumulated forces, its
position is always `(fx, fy)`. -/
theorem gForce_C4 (stepInterval : ℝ) (vel : ℕ → ℝ × ℝ) (vx vy : ℝ) (node : INode)
    (a b : ℝ) (n : ℕ) (hfx : node.fx = some a) (hfy : node.fy = some b) (hn : 1 ≤ n) :
    updatePositionNode stepInterval vx vy node = { node with x := a, y := b } ∧
    (iterUpdatePosition stepInterval vel n node).x = a ∧
    (iterUpdatePosition stepInterval vel n node).y = b := by
  refine ⟨updatePositionNode_pinned _ _ _ hfx hfy, ?_⟩
  obtain ⟨m, rfl⟩ : ∃ m, n = m + 1 := ⟨n - 1, (Nat.succ_pred_eq_of_pos hn).symm⟩
  have hfx' : (iterUpdatePosition stepInterval vel m node).fx = some a :=
    (iterUpdatePosition_fx stepInterval vel node m).1.trans hfx
  have hfy' : (iterUpdatePosition stepInterval vel m node).fy = some b :=
    (iterUpdatePosition_fx stepInterval vel node m).2.trans hfy
  unfold iterUpdatePosition
  rw [updatePositionNode_pinned _ _ _ hfx' hfy']
  exact ⟨rfl, rfl⟩

/-- C4 witness: a node pinned at (1, 2) sits at (1, 2) after 3 steps of
velocity (100, 100), and a single update snaps it there. -/
theorem gForce_C4_witness :
    updatePositionNode 0.02 7 8 ⟨5, 6, some 1, some 2⟩ =
      { (⟨5, 6, some 1, some 2⟩ : INode) with x := 1, y := 2 } ∧
    (iterUpdatePosition 0.02 (fun _ => (100, 100)) 3 ⟨5, 6, some 1, some 2⟩).x = 1 ∧
    (iterUpdatePosition 0.02 (fun _ => (100, 100)) 3 ⟨5, 6, some 1, some 2⟩).y = 2 :=
  gForce_C4 0.02 (fun _ => (100, 100)) 7 8 ⟨5, 6, some 1, some 2⟩ 1 2 3 rfl rfl
    (by norm_num)

/-- C7: when a per-node center callback is supplied, the custom center and
gravity strength are used exactly when the returned triple has all three
components present as (finite) numbers; any malformed result falls back to
the behavior with no callback (global default center and gravity), and the
computation is total, so no error is surfaced. -/
theorem gForce_C7 (center : ℝ × ℝ) (dg : ℝ)
    (f : INode → ℝ → Option (Option ℝ × Option ℝ × Option ℝ))
    (node : INode) (deg ax ay : ℝ) :
    (∀ cx cy g, f node deg = some (some cx, some cy, some g) →
      calGravityNode center dg (some f) node deg ax ay =
        (if g = 0 then (ax, ay)
          else (ax - g * (node.x - cx), ay - g * (node.y - cy)))) ∧
    ((∀ cx cy g, f node deg ≠ some (some cx, some cy, some g)) →
      calGravityNode center dg (some f) node deg ax ay =
        calGravityNode center dg none node deg ax ay) := by
  constructor
  · intro cx cy g hf
    simp only [calGravityNode, hf]
  · intro hmal
    rcases hfd : f node deg with _ | ⟨cx0, cy0, g0⟩
    · simp [calGravityNode, hfd]
    · rcases cx0 with _ | cx
      · simp [calGravityNode, hfd]
      · rcases cy0 with _ | cy
        · simp [calGravityNode, hfd]
        · rcases g0 with _ | g
          · simp [calGravityNode, hfd]
          · exact absurd hfd (hmal cx cy g)

/-- C7 witness: a well-formed triple (1, 2, 3) is used as custom center
and strength; a triple with a missing first component falls back to the
default-center behavior. -/
theorem gForce_C7_witness :
    calGravityNode (0, 0) 10 (some fun _ _ => some (some 1, some 2, some 3))
        ⟨7, 8, none, none⟩ 0 0 0 =
      ((0 : ℝ) - 3 * ((7 : ℝ) - 1), (0 : ℝ) - 3 * ((8 : ℝ) - 2)) ∧
    calGravityNode (0, 0) 10 (some fun _ _ => some (none, some 2, some 3))
        ⟨7, 8, none, none⟩ 0 0 0 =
      calGravityNode (0, 0) 10 none ⟨7, 8, none, none⟩ 0 0 0 := by
  constructor
  · have h := (gForce_C7 (0, 0) 10 (fun _ _ => some (some 1, some 2, some 3))
      ⟨7, 8, none, none⟩ 0 0 0).1 1 2 3 rfl
    rw [if_neg (by norm_num : ¬(3 : ℝ) = 0)] at h
    exact h
  · exact (gForce_C7 (0, 0) 10 (fun _ _ => some (none, some 2, some 3))
      ⟨7, 8, none, none⟩ 0 0 0).2 (fun cx cy g h => by simp at h)

/-- C8 fails on the code: in the interval-driven path of `run`, one
callback execution that reaches the movement threshold at `iter = 0` with
`maxIteration = 1` fires `onLayoutEnd` for convergence, then — with no
early return — increments `iter` and fires `onLayoutEnd` a second time for
`iter >= maxIteration`, so the completion callback runs twice in one run.
Such a tick occurs e.g. for a two-node graph whose nodes are pinned at
their starting positions (mean displacement 0 < minMovement). -/
theorem gForce_C8 :
    (intervalTick 1 true { iter := 0, endCount := 0, cleared := false }).endCount = 2 := rfl

lemma updatePositionNode_unpinned (st vx vy : ℝ) {node : INode}
    (h : isNumber node.fx = false ∨ isNumber node.fy = false) :
    updatePositionNode st vx vy node =
      { node with x := node.x + vx * st, y := node.y + vy * st } := by
  unfold updatePositionNode
  have hc : (isNumber node.fx && isNumber node.fy) = false := by
    rcases h with h | h <;> simp [h]
  rw [hc]
  simp

lemma vecNorm_le_of_clamp (damping maxSpeed stepInterval ax ay : ℝ) (hms : 0 ≤ maxSpeed) :
    vecNorm (updateVelocityNode damping maxSpeed stepInterval ax ay).1
      (updateVelocityNode damping maxSpeed stepInterval ax ay).2 ≤ maxSpeed := by
  unfold updateVelocityNode
  by_cases hcl : vecNorm (preVelocity damping stepInterval ax ay).1
      (preVelocity damping stepInterval ax ay).2 > maxSpeed
  · rw [if_pos hcl]
    have hL0 : 0 < vecNorm (preVelocity damping stepInterval ax ay).1
        (preVelocity damping stepInterval ax ay).2 := lt_of_le_of_lt hms hcl
    simp only
    rw [vecNorm_smul _ _ _ (div_nonneg hms hL0.le)]
    rw [div_mul_cancel₀ _ hL0.ne']
  · rw [if_neg hcl]
    exact le_of_not_lt hcl

/-- C1: for a pair of nodes at distinct positions, the base repulsive
acceleration (overlap prevention off) on node `ni` equals the normalized
direction from `nj` to `ni` scaled by
`(strength_i + strength_j)/2 * factor / ((distance + 0.1) * coulombDisScale)^2`,
the contribution to `nj` is its exact negation, the magnitude of the
contribution is that scalar, and the result does not depend on the mass
callback at all. -/
theorem gForce_C1 (factor coulombDisScale collideStrength : ℝ)
    (nodeStrength nodeSize getMass getMass' : INode → ℝ) (ni nj : INode)
    (rand : ℝ × ℝ) (d p : ℝ)
    (hne : ¬(ni.x - nj.x = 0 ∧ ni.y - nj.y = 0))
    (hd : d = vecNorm (ni.x - nj.x) (ni.y - nj.y))
    (hp : p = (nodeStrength ni + nodeStrength nj) / 2 * factor /
      ((d + 0.1) * coulombDisScale) ^ 2)
    (hstr : 0 ≤ nodeStrength ni + nodeStrength nj) (hfac : 0 ≤ factor) :
    calRepulsivePair factor coulombDisScale false collideStrength
        nodeStrength nodeSize getMass ni nj rand =
      (((ni.x - nj.x) / d * p, (ni.y - nj.y) / d * p),
       (-((ni.x - nj.x) / d * p), -((ni.y - nj.y) / d * p))) ∧
    vecNorm ((ni.x - nj.x) / d * p) ((ni.y - nj.y) / d * p) = p ∧
    calRepulsivePair factor coulombDisScale false collideStrength
        nodeStrength nodeSize getMass' ni nj rand =
      calRepulsivePair factor coulombDisScale false collideStrength
        nodeStrength nodeSize getMass ni nj rand := by
  have hd0 : 0 < d := hd ▸ vecNorm_pos hne
  have hds : Real.sqrt ((ni.x - nj.x) * (ni.x - nj.x) + (ni.y - nj.y) * (ni.y - nj.y)) = d := by
    rw [hd]; rfl
  have hp0 : 0 ≤ p := by
    rw [hp]
    exact div_nonneg (mul_nonneg (div_nonneg hstr (by norm_num)) hfac) (sq_nonneg _)
  refine ⟨?_, ?_, ?_⟩
  · simp only [calRepulsivePair, if_neg hne]
    rw [if_neg (fun h => Bool.false_ne_true h.1)]
    rw [hds, hp]
    simp only [Prod.mk.injEq]
    refine ⟨⟨?_, ?_⟩, ?_, ?_⟩ <;> ring
  · rw [show (ni.x - nj.x) / d * p = (p / d) * (ni.x - nj.x) by ring,
      show (ni.y - nj.y) / d * p = (p / d) * (ni.y - nj.y) by ring,
      vecNorm_smul _ _ _ (div_nonneg hp0 hd0.le), ← hd]
    field_simp
  · simp only [calRepulsivePair, if_neg hne]
    rw [if_neg (fun h => Bool.false_ne_true h.1), if_neg (fun h => Bool.false_ne_true h.1)]

/-- C1 witness: nodes at (3,4) and (0,0), unit strengths and factor, unit
Coulomb scale, so the distance is 5 and the scalar is 100/2601; the same
base contribution results for mass 2 and mass 5. -/
theorem gForce_C1_witness :
    calRepulsivePair 1 1 false 1 (fun _ => 1) (fun _ => 6) (fun _ => 2)
        ⟨3, 4, none, none⟩ ⟨0, 0, none, none⟩ (0, 0) =
      ((((3 : ℝ) - 0) / 5 * (100 / 2601), ((4 : ℝ) - 0) / 5 * (100 / 2601)),
       (-(((3 : ℝ) - 0) / 5 * (100 / 2601)), -(((4 : ℝ) - 0) / 5 * (100 / 2601)))) ∧
    vecNorm (((3 : ℝ) - 0) / 5 * (100 / 2601)) (((4 : ℝ) - 0) / 5 * (100 / 2601)) = 100 / 2601 ∧
    calRepulsivePair 1 1 false 1 (fun _ => 1) (fun _ => 6) (fun _ => 5)
        ⟨3, 4, none, none⟩ ⟨0, 0, none, none⟩ (0, 0) =
      calRepulsivePair 1 1 false 1 (fun _ => 1) (fun _ => 6) (fun _ => 2)
        ⟨3, 4, none, none⟩ ⟨0, 0, none, none⟩ (0, 0) :=
  gForce_C1 1 1 1 (fun _ => 1) (fun _ => 6) (fun _ => 2) (fun _ => 5)
    ⟨3, 4, none, none⟩ ⟨0, 0, none, none⟩ (0, 0) 5 (100 / 2601)
    (by norm_num) (by norm_num [vecNorm, real_sqrt_25]) (by norm_num)
    (by norm_num) (by norm_num)

/-- C3: with overlap prevention on and the sum of the two half-sizes
exceeding the distance, the pair contribution equals the base repulsion
plus an extra term of scalar
`collideStrength * (strength_i + strength_j)/2 / distance^2` along the same
separating direction, divided by each node's own mass; without overlap the
contribution is exactly the base repulsion. -/
theorem gForce_C3 (factor coulombDisScale collideStrength : ℝ)
    (nodeStrength nodeSize getMass : INode → ℝ) (ni nj : INode) (rand : ℝ × ℝ)
    (d po : ℝ)
    (hne : ¬(ni.x - nj.x = 0 ∧ ni.y - nj.y = 0))
    (hd : d = vecNorm (ni.x - nj.x) (ni.y - nj.y))
    (hpo : po = collideStrength * (nodeStrength ni + nodeStrength nj) / 2 / d ^ 2) :
    ((nodeSize ni + nodeSize nj) / 2 > d →
      calRepulsivePair factor coulombDisScale true collideStrength
          nodeStrength nodeSize getMass ni nj rand =
        (((calRepulsivePair factor coulombDisScale false collideStrength
              nodeStrength nodeSize getMass ni nj rand).1.1
            + (ni.x - nj.x) / d * po / getMass ni,
          (calRepulsivePair factor coulombDisScale false collideStrength
              nodeStrength nodeSize getMass ni nj rand).1.2
            + (ni.y - nj.y) / d * po / getMass ni),
         ((calRepulsivePair factor coulombDisScale false collideStrength
              nodeStrength nodeSize getMass ni nj rand).2.1
            - (ni.x - nj.x) / d * po / getMass nj,
          (calRepulsivePair factor coulombDisScale false collideStrength
              nodeStrength nodeSize getMass ni nj rand).2.2
            - (ni.y - nj.y) / d * po / getMass nj))) ∧
    (¬((nodeSize ni + nodeSize nj) / 2 > d) →
      calRepulsivePair factor coulombDisScale true collideStrength
          nodeStrength nodeSize getMass ni nj rand =
        calRepulsivePair factor coulombDisScale false collideStrength
          nodeStrength nodeSize getMass ni nj rand) := by
  have hds : Real.sqrt ((ni.x - nj.x) * (ni.x - nj.x) + (ni.y - nj.y) * (ni.y - nj.y)) = d := by
    rw [hd]; rfl
  have hsum : (ni.x - nj.x) * (ni.x - nj.x) + (ni.y - nj.y) * (ni.y - nj.y) = d ^ 2 := by
    rw [hd, sq]
    exact (vecNorm_mul_self _ _).symm
  constructor
  · intro hov
    simp only [calRepulsivePair, if_neg hne]
    rw [hds]
    rw [if_pos (show True ∧ (nodeSize ni + nodeSize nj) / 2 > d from ⟨trivial, hov⟩)]
    rw [if_neg (fun h => Bool.false_ne_true h.1)]
    rw [hpo, hsum]
    simp only [Prod.mk.injEq]
    refine ⟨⟨?_, ?_⟩, ?_, ?_⟩ <;> ring
  · intro hnov
    simp only [calRepulsivePair, if_neg hne]
    rw [hds]
    rw [if_neg (fun h => hnov h.2), if_neg (fun h => Bool.false_ne_true h.1)]

/-- C3 witness: nodes at (3,4) and (0,0) with size 6 each overlap
(6 > 5) and the collision term 1/25 divided by mass 2 is stacked on the
base repulsion. -/
theorem gForce_C3_witness :
    calRepulsivePair 1 1 true 1 (fun _ => 1) (fun _ => 6) (fun _ => 2)
        ⟨3, 4, none, none⟩ ⟨0, 0, none, none⟩ (0, 0) =
      (((calRepulsivePair 1 1 false 1 (fun _ => 1) (fun _ => 6) (fun _ => 2)
            ⟨3, 4, none, none⟩ ⟨0, 0, none, none⟩ (0, 0)).1.1
          + ((3 : ℝ) - 0) / 5 * (1 / 25) / 2,
        (calRepulsivePair 1 1 false 1 (fun _ => 1) (fun _ => 6) (fun _ => 2)
            ⟨3, 4, none, none⟩ ⟨0, 0, none, none⟩ (0, 0)).1.2
          + ((4 : ℝ) - 0) / 5 * (1 / 25) / 2),
       ((calRepulsivePair 1 1 false 1 (fun _ => 1) (fun _ => 6) (fun _ => 2)
            ⟨3, 4, none, none⟩ ⟨0, 0, none, none⟩ (0, 0)).2.1
          - ((3 : ℝ) - 0) / 5 * (1 / 25) / 2,
        (calRepulsivePair 1 1 false 1 (fun _ => 1) (fun _ => 6) (fun _ => 2)
            ⟨3, 4, none, none⟩ ⟨0, 0, none, none⟩ (0, 0)).2.2
          - ((4 : ℝ) - 0) / 5 * (1 / 25) / 2)) :=
  (gForce_C3 1 1 1 (fun _ => 1) (fun _ => 6) (fun _ => 2)
    ⟨3, 4, none, none⟩ ⟨0, 0, none, none⟩ (0, 0) 5 (1 / 25)
    (by norm_num) (by norm_num [vecNorm, real_sqrt_25]) (by norm_num)).1
    (by norm_num)

/-- C2 counterexample: source (0,0), target (1,0), ideal length 10, unit
strength and masses.  The diff `idealLength - actualDistance = 9` is
positive, yet the source's contribution is (-9, 0) — away from the target
sitting in the +x direction — and the target's is (9, 0) — away from the
source: a positive diff pushes the endpoints apart, refuting the claim
that a positive diff pulls them together. -/
theorem gForce_C2_cex :
    idealLength (fun _ _ _ => (10 : ℝ)) (fun _ => 0) ()
        ⟨0, 0, none, none⟩ ⟨1, 0, none, none⟩ -
      vecNorm ((1 : ℝ) - 0) ((0 : ℝ) - 0) = 9 ∧
    calAttractiveEdge (fun _ _ _ => (10 : ℝ)) (fun _ => 1) (fun _ => 0) (fun _ => 1) ()
        ⟨0, 0, none, none⟩ ⟨1, 0, none, none⟩ (0, 0) = ((-9, 0), (9, 0)) := by
  constructor
  · unfold idealLength vecNorm
    rw [jsOr_of_ne _ (by norm_num : (10 : ℝ) ≠ 0)]
    norm_num [Real.sqrt_one]
  · unfold calAttractiveEdge idealLength
    norm_num [jsOr, Real.sqrt_one]

/-- C2 (amended): for every edge with endpoints at distinct positions the
attraction contribution equals the source-to-target unit direction scaled
by `diff * edgeStrength(edge)`, applied negatively to the source and
positively to the target, each divided by that endpoint's own mass; hence
along the source-to-target direction the source receives
`-(diff * strength)/mass` and the target `(diff * strength)/mass`, so a
positive diff (actual distance below the ideal) pushes the endpoints apart
and a negative diff pulls them together. -/
theorem gForce_C2_amended {α : Type} (linkDistance : α → INode → INode → ℝ)
    (edgeStrength : α → ℝ) (nodeSize getMass : INode → ℝ) (edge : α)
    (sourceNode targetNode : INode) (rand : ℝ × ℝ) (d diff : ℝ)
    (hne : ¬(targetNode.x - sourceNode.x = 0 ∧ targetNode.y - sourceNode.y = 0))
    (hd : d = vecNorm (targetNode.x - sourceNode.x) (targetNode.y - sourceNode.y))
    (hdiff : diff = idealLength linkDistance nodeSize edge sourceNode targetNode - d) :
    calAttractiveEdge linkDistance edgeStrength nodeSize getMass edge
        sourceNode targetNode rand =
      ((-((targetNode.x - sourceNode.x) / d * (diff * edgeStrength edge)) / getMass sourceNode,
        -((targetNode.y - sourceNode.y) / d * (diff * edgeStrength edge)) / getMass sourceNode),
       ((targetNode.x - sourceNode.x) / d * (diff * edgeStrength edge) / getMass targetNode,
        (targetNode.y - sourceNode.y) / d * (diff * edgeStrength edge) / getMass targetNode)) ∧
    (calAttractiveEdge linkDistance edgeStrength nodeSize getMass edge
        sourceNode targetNode rand).1.1 * ((targetNode.x - sourceNode.x) / d) +
      (calAttractiveEdge linkDistance edgeStrength nodeSize getMass edge
        sourceNode targetNode rand).1.2 * ((targetNode.y - sourceNode.y) / d) =
      -(diff * edgeStrength edge) / getMass sourceNode ∧
    (calAttractiveEdge linkDistance edgeStrength nodeSize getMass edge
        sourceNode targetNode rand).2.1 * ((targetNode.x - sourceNode.x) / d) +
      (calAttractiveEdge linkDistance edgeStrength nodeSize getMass edge
        sourceNode targetNode rand).2.2 * ((targetNode.y - sourceNode.y) / d) =
      diff * edgeStrength edge / getMass targetNode := by
  have hd0 : 0 < d := hd ▸ vecNorm_pos hne
  have hds : Real.sqrt ((targetNode.x - sourceNode.x) * (targetNode.x - sourceNode.x) +
      (targetNode.y - sourceNode.y) * (targetNode.y - sourceNode.y)) = d := by
    rw [hd]; rfl
  have hsum : (targetNode.x - sourceNode.x) * (targetNode.x - sourceNode.x) +
      (targetNode.y - sourceNode.y) * (targetNode.y - sourceNode.y) = d * d := by
    rw [hd]; exact (vecNorm_mul_self _ _).symm
  have heq : calAttractiveEdge linkDistance edgeStrength nodeSize getMass edge
      sourceNode targetNode rand =
      ((-((targetNode.x - sourceNode.x) / d * (diff * edgeStrength edge)) / getMass sourceNode,
        -((targetNode.y - sourceNode.y) / d * (diff * edgeStrength edge)) / getMass sourceNode),
       ((targetNode.x - sourceNode.x) / d * (diff * edgeStrength edge) / getMass targetNode,
        (targetNode.y - sourceNode.y) / d * (diff * edgeStrength edge) / getMass targetNode)) := by
    simp only [calAttractiveEdge, if_neg hne]
    rw [hds, ← hdiff]
  have hdne : d ≠ 0 := hd0.ne'
  have hnorm : (targetNode.x - sourceNode.x) / d * ((targetNode.x - sourceNode.x) / d) +
      (targetNode.y - sourceNode.y) / d * ((targetNode.y - sourceNode.y) / d) = 1 := by
    field_simp
    linear_combination hsum
  refine ⟨heq, ?_, ?_⟩
  · rw [heq]
    calc -((targetNode.x - sourceNode.x) / d * (diff * edgeStrength edge)) / getMass sourceNode *
          ((targetNode.x - sourceNode.x) / d) +
        -((targetNode.y - sourceNode.y) / d * (diff * edgeStrength edge)) / getMass sourceNode *
          ((targetNode.y - sourceNode.y) / d)
        = -(diff * edgeStrength edge) / getMass sourceNode *
            ((targetNode.x - sourceNode.x) / d * ((targetNode.x - sourceNode.x) / d) +
              (targetNode.y - sourceNode.y) / d * ((targetNode.y - sourceNode.y) / d)) := by
          ring
      _ = -(diff * edgeStrength edge) / getMass sourceNode := by rw [hnorm, mul_one]
  · rw [heq]
    calc (targetNode.x - sourceNode.x) / d * (diff * edgeStrength edge) / getMass targetNode *
          ((targetNode.x - sourceNode.x) / d) +
        (targetNode.y - sourceNode.y) / d * (diff * edgeStrength edge) / getMass targetNode *
          ((targetNode.y - sourceNode.y) / d)
        = diff * edgeStrength edge / getMass targetNode *
            ((targetNode.x - sourceNode.x) / d * ((targetNode.x - sourceNode.x) / d) +
              (targetNode.y - sourceNode.y) / d * ((targetNode.y - sourceNode.y) / d)) := by
          ring
      _ = diff * edgeStrength edge / getMass targetNode := by rw [hnorm, mul_one]

/-- C2 amended witness: source (0,0), target (3,4), ideal length 10, so
the distance is 5 and diff is 5; the source is pushed opposite to the
source-to-target direction and the target along it. -/
theorem gForce_C2_amended_witness :
    calAttractiveEdge (fun _ _ _ => (10 : ℝ)) (fun _ => 1) (fun _ => 0) (fun _ => 1) ()
        ⟨0, 0, none, none⟩ ⟨3, 4, none, none⟩ (0, 0) =
      ((-((((3 : ℝ) - 0) / 5) * ((5 : ℝ) * 1)) / 1,
        -((((4 : ℝ) - 0) / 5) * ((5 : ℝ) * 1)) / 1),
       ((((3 : ℝ) - 0) / 5) * ((5 : ℝ) * 1) / 1,
        (((4 : ℝ) - 0) / 5) * ((5 : ℝ) * 1) / 1)) ∧
    (calAttractiveEdge (fun _ _ _ => (10 : ℝ)) (fun _ => 1) (fun _ => 0) (fun _ => 1) ()
        ⟨0, 0, none, none⟩ ⟨3, 4, none, none⟩ (0, 0)).1.1 * (((3 : ℝ) - 0) / 5) +
      (calAttractiveEdge (fun _ _ _ => (10 : ℝ)) (fun _ => 1) (fun _ => 0) (fun _ => 1) ()
        ⟨0, 0, none, none⟩ ⟨3, 4, none, none⟩ (0, 0)).1.2 * (((4 : ℝ) - 0) / 5) =
      -((5 : ℝ) * 1) / 1 ∧
    (calAttractiveEdge (fun _ _ _ => (10 : ℝ)) (fun _ => 1) (fun _ => 0) (fun _ => 1) ()
        ⟨0, 0, none, none⟩ ⟨3, 4, none, none⟩ (0, 0)).2.1 * (((3 : ℝ) - 0) / 5) +
      (calAttractiveEdge (fun _ _ _ => (10 : ℝ)) (fun _ => 1) (fun _ => 0) (fun _ => 1) ()
        ⟨0, 0, none, none⟩ ⟨3, 4, none, none⟩ (0, 0)).2.2 * (((4 : ℝ) - 0) / 5) =
      (5 : ℝ) * 1 / 1 :=
  gForce_C2_amended (fun _ _ _ => (10 : ℝ)) (fun _ => 1) (fun _ => 0) (fun _ => 1) ()
    ⟨0, 0, none, none⟩ ⟨3, 4, none, none⟩ (0, 0) 5 5
    (by norm_num) (by norm_num [vecNorm, real_sqrt_25])
    (by norm_num [idealLength, jsOr])

/-- C5: when the velocity computed from the acceleration exceeds
`maxSpeed`, both components are rescaled by the positive factor
`maxSpeed / vLen`, preserving direction and making the magnitude exactly
`maxSpeed`; consequently an unpinned node's per-step displacement
magnitude never exceeds `maxSpeed * stepInterval`, whatever the
accumulated acceleration. -/
theorem gForce_C5 (damping maxSpeed stepInterval ax ay : ℝ) (node : INode)
    (vx vy vLen : ℝ)
    (hms : 0 < maxSpeed) (hsi : 0 ≤ stepInterval)
    (hvx : vx = jsOr (ax * (stepInterval * damping)) 0.01)
    (hvy : vy = jsOr (ay * (stepInterval * damping)) 0.01)
    (hvl : vLen = vecNorm vx vy)
    (hun : isNumber node.fx = false ∨ isNumber node.fy = false) :
    (vLen > maxSpeed →
      updateVelocityNode damping maxSpeed stepInterval ax ay =
        (maxSpeed / vLen * vx, maxSpeed / vLen * vy) ∧
      0 < maxSpeed / vLen ∧
      vecNorm (maxSpeed / vLen * vx) (maxSpeed / vLen * vy) = maxSpeed) ∧
    vecNorm
      ((updatePositionNode stepInterval
          (updateVelocityNode damping maxSpeed stepInterval ax ay).1
          (updateVelocityNode damping maxSpeed stepInterval ax ay).2 node).x - node.x)
      ((updatePositionNode stepInterval
          (updateVelocityNode damping maxSpeed stepInterval ax ay).1
          (updateVelocityNode damping maxSpeed stepInterval ax ay).2 node).y - node.y) ≤
      maxSpeed * stepInterval := by
  have hpre : preVelocity damping stepInterval ax ay = (vx, vy) := by
    unfold preVelocity
    rw [hvx, hvy]
  constructor
  · intro hcl
    have hL0 : 0 < vLen := lt_trans hms hcl
    have hupd : updateVelocityNode damping maxSpeed stepInterval ax ay =
        (maxSpeed / vLen * vx, maxSpeed / vLen * vy) := by
      unfold updateVelocityNode
      rw [hpre]
      simp only
      rw [← hvl, if_pos hcl]
    refine ⟨hupd, div_pos hms hL0, ?_⟩
    rw [vecNorm_smul _ _ _ (div_nonneg hms.le hL0.le), ← hvl,
      div_mul_cancel₀ _ hL0.ne']
  · rw [updatePositionNode_unpinned _ _ _ hun]
    simp only
    rw [show node.x + (updateVelocityNode damping maxSpeed stepInterval ax ay).1 * stepInterval -
        node.x = stepInterval * (updateVelocityNode damping maxSpeed stepInterval ax ay).1 by ring,
      show node.y + (updateVelocityNode damping maxSpeed stepInterval ax ay).2 * stepInterval -
        node.y = stepInterval * (updateVelocityNode damping maxSpeed stepInterval ax ay).2 by ring,
      vecNorm_smul _ _ _ hsi]
    rw [mul_comm maxSpeed stepInterval]
    exact mul_le_mul_of_nonneg_left
      (vecNorm_le_of_clamp damping maxSpeed stepInterval ax ay hms.le) hsi

/-- C5 witness: acceleration (3, 4) with damping 1 and step 1 gives
velocity (3, 4) of magnitude 5, exceeding maxSpeed 1; it is rescaled to
magnitude 1 and the unpinned node at the origin moves by at most
`1 * 1`. -/
theorem gForce_C5_witness :
    (updateVelocityNode 1 1 1 3 4 = ((1 : ℝ) / 5 * 3, (1 : ℝ) / 5 * 4) ∧
      0 < (1 : ℝ) / 5 ∧
      vecNorm ((1 : ℝ) / 5 * 3) ((1 : ℝ) / 5 * 4) = 1) ∧
    vecNorm
      ((updatePositionNode 1 (updateVelocityNode 1 1 1 3 4).1
          (updateVelocityNode 1 1 1 3 4).2 ⟨0, 0, none, none⟩).x - 0)
      ((updatePositionNode 1 (updateVelocityNode 1 1 1 3 4).1
          (updateVelocityNode 1 1 1 3 4).2 ⟨0, 0, none, none⟩).y - 0) ≤
      (1 : ℝ) * 1 := by
  have h := gForce_C5 1 1 1 3 4 ⟨0, 0, none, none⟩ 3 4 5 (by norm_num) (by norm_num)
    (by norm_num [jsOr]) (by norm_num [jsOr]) vecNorm_3_4.symm (Or.inl rfl)
  exact ⟨h.1 (by norm_num), h.2⟩
